import Mathlib

/-!
Shallow embedding of the LaTeX question-paper pipeline:

* `sanitizeLatex`   — from the API route (the `sanitizeLatex` function of the
  upload/compile handler): protects math/verbatim/comment spans behind
  placeholders, rewrites legacy `enumerate` options, escapes reserved
  characters, collapses underscore blank-runs, restores the placeholders.
* `parseQuestions`  — from `src/components/LatexPreview.tsx`: narrows to the
  question body, tries an ordered cascade of header patterns, filters
  candidates, splits prompt/solution, dedups by number and sorts.
* `formatContent`   — from `src/components/LatexPreview.tsx`: rewrites a fixed
  set of LaTeX commands to HTML.

The source is JavaScript operating on UTF-16 strings with `String.replace` and
concrete regular expressions.  Strings are modelled as `List Char`; every
`replace` call is modelled by a bespoke scanner implementing exactly that
regular expression's matching semantics (leftmost match, greedy/lazy
quantifiers, lookahead/lookbehind, `/g` continuation after each match,
matching always against the input string of that pass).  All inputs used in
the theorems below are ASCII without carriage returns, so the ASCII fragment
of the JS `\s` class and of `toLowerCase` is sufficient.
-/

/-! ### Basic characters and character classes -/

def bslash : Char := '\\'

def lbrace : Char := Char.ofNat 123

def rbrace : Char := Char.ofNat 125

/-- ASCII fragment of the JS `\s` (whitespace) class:
space, tab, line feed, vertical tab, form feed, carriage return. -/
def isJsWs (c : Char) : Bool :=
  c = ' ' || c = '\t' || c = '\n' || c = Char.ofNat 11 || c = Char.ofNat 12 || c = '\r'

def isDigitC (c : Char) : Bool := '0' ≤ c && c ≤ '9'

/-- The JS class `[a-zA-Z]`. -/
def isAsciiLetter (c : Char) : Bool := ('a' ≤ c && c ≤ 'z') || ('A' ≤ c && c ≤ 'Z')

/-! ### Substring utilities -/

/-- Whether `pat` occurs as a contiguous substring of the list
(JS `String.prototype.includes`). -/
def containsSub (pat : List Char) : List Char → Bool
  | [] => pat.isEmpty
  | c :: rest => pat.isPrefixOf (c :: rest) || containsSub pat rest

/-- Index of the first occurrence of `pat` (JS `String.prototype.indexOf`). -/
def idxOfSub (pat : List Char) : List Char → Option Nat
  | [] => if pat.isEmpty then some 0 else none
  | c :: rest =>
    if pat.isPrefixOf (c :: rest) then some 0
    else (idxOfSub pat rest).map (· + 1)

/-- JS `GetSubstitution` for `String.prototype.replace` with a **string**
pattern: in the replacement text `$$` is a literal `$`, `$&` is the matched
text, a `$` followed by a backquote is the text before the match, a `$`
followed by an apostrophe is the text after the match; everything else
(including `$1`, since a string pattern has no capture groups) is literal. -/
def dollarSubst (matched before after : List Char) : List Char → List Char
  | [] => []
  | '$' :: '$' :: r => '$' :: dollarSubst matched before after r
  | '$' :: '&' :: r => matched ++ dollarSubst matched before after r
  | '$' :: c :: r =>
    if c = Char.ofNat 96 then before ++ dollarSubst matched before after r
    else if c = Char.ofNat 39 then after ++ dollarSubst matched before after r
    else '$' :: c :: dollarSubst matched before after r
  | c :: r => c :: dollarSubst matched before after r

def replaceFirstGo (pat rep : List Char) (acc : List Char) : List Char → List Char
  | [] => acc.reverse
  | c :: rest =>
    if pat.isPrefixOf (c :: rest) then
      acc.reverse ++ dollarSubst pat acc.reverse ((c :: rest).drop pat.length) rep
        ++ (c :: rest).drop pat.length
    else replaceFirstGo pat rep (c :: acc) rest

/-- JS `s.replace(pat, rep)` with a *string* pattern `pat`: replaces the first
occurrence only, applying `$`-substitution to `rep`. -/
def replaceFirstJS (pat rep l : List Char) : List Char :=
  if pat.isEmpty then dollarSubst [] [] l rep ++ l
  else replaceFirstGo pat rep [] l

/-! ### Generic global-replace scanners

A pass is driven by a `step` function: given the rest of the input it either
matches (returning the emitted replacement text and the number of input
characters consumed, at least 1) or does not, in which case the scanner copies
one character and retries at the next position — exactly the behaviour of a
`/g` `replace` whose matches are found left to right on the input string.
The fuel argument is initialised with the length of the input; since every
iteration consumes at least one input character it never runs out. -/

def runPassGo (step : List Char → Option (List Char × Nat)) :
    Nat → List Char → List Char
  | 0, l => l
  | _, [] => []
  | fuel + 1, c :: rest =>
    match step (c :: rest) with
    | some (out, n) => out ++ runPassGo step fuel ((c :: rest).drop (max n 1))
    | none => c :: runPassGo step fuel rest

def runPass (step : List Char → Option (List Char × Nat)) (l : List Char) : List Char :=
  runPassGo step l.length l

/-- Variant whose step also sees the previous character of the *input* string
(for lookbehinds and the `^` anchor; JS matches every occurrence against the
original input of the pass, so the previous character is the input's, not the
output's). -/
def runPassPGo (step : Option Char → List Char → Option (List Char × Nat)) :
    Nat → Option Char → List Char → List Char
  | 0, _, l => l
  | _, _, [] => []
  | fuel + 1, prev, c :: rest =>
    match step prev (c :: rest) with
    | some (out, n) =>
      let m := max n 1
      out ++ runPassPGo step fuel (((c :: rest).take m).getLast?) ((c :: rest).drop m)
    | none => c :: runPassPGo step fuel (some c) rest

def runPassP (step : Option Char → List Char → Option (List Char × Nat))
    (l : List Char) : List Char :=
  runPassPGo step l.length none l

/-- Global replacement of a literal pattern (a regex without metacharacters),
with a replacement containing no `$`. -/
def replaceAllLit (pat rep : List Char) (l : List Char) : List Char :=
  runPass (fun cs => if pat.isPrefixOf cs then some (rep, pat.length) else none) l

/-! ### Sanitizer (`sanitizeLatex` in the upload/compile API route) -/

/-- State shared by the math/verbatim protection passes: the source uses one
`counter` for inline math, display math, `$$` math and `\verb`, a sparse
`mathBlocks` array and a sparse `verbatimBlocks` array, both indexed by that
counter.  Blocks are modelled as association lists index ↦ original text. -/
structure SanSt where
  counter : Nat
  mathBlocks : List (Nat × List Char)
  verbBlocks : List (Nat × List Char)

def mathPlaceholder (i : Nat) : List Char := ("MATHBLOCK" ++ toString i).data

def verbPlaceholder (i : Nat) : List Char := ("VERBBLOCK" ++ toString i).data

def commentPlaceholder (i : Nat) : List Char := ("LATEXCOMMENT" ++ toString i).data

/-- `sanitized.replace(/\$([^$]+)\$/g, ...)`: an inline-math span is a `$`,
one or more non-`$` characters, and a `$`.  On a failed opening `$` (no
closing `$`, or `$$` immediately) the engine retries from the next
character. -/
def protectInlineGo : Nat → SanSt → List Char → List Char × SanSt
  | 0, st, l => (l, st)
  | _, st, [] => ([], st)
  | fuel + 1, st, c :: rest =>
    if c = '$' then
      let content := rest.takeWhile (fun d => d ≠ '$')
      match rest.dropWhile (fun d => d ≠ '$') with
      | '$' :: rest3 =>
        if content.isEmpty then
          let (l2, st2) := protectInlineGo fuel st rest
          ('$' :: l2, st2)
        else
          let matched := '$' :: content ++ ['$']
          let st1 : SanSt :=
            { st with counter := st.counter + 1,
                      mathBlocks := st.mathBlocks ++ [(st.counter, matched)] }
          let (l2, st2) := protectInlineGo fuel st1 rest3
          (mathPlaceholder st.counter ++ l2, st2)
      | _ =>
        let (l2, st2) := protectInlineGo fuel st rest
        ('$' :: l2, st2)
    else
      let (l2, st2) := protectInlineGo fuel st rest
      (c :: l2, st2)

def protectInline (st : SanSt) (l : List Char) : List Char × SanSt :=
  protectInlineGo l.length st l

/-- `sanitized.replace(/\\\[([^\]]+)\\\]/g, ...)`: `\[`, then a greedy run of
non-`]` characters which (after giving back one character to the closing
`\]`) must be nonempty and end in `\`, then `]`.  Since the content class
excludes `]`, the closing must sit at the first `]` after the opener. -/
def protectDisplayGo : Nat → SanSt → List Char → List Char × SanSt
  | 0, st, l => (l, st)
  | _, st, [] => ([], st)
  | fuel + 1, st, c :: rest =>
    let keep : List Char × SanSt :=
      let (l2, st2) := protectDisplayGo fuel st rest
      (c :: l2, st2)
    if c = bslash then
      match rest with
      | '[' :: r2 =>
        let run := r2.takeWhile (fun d => d ≠ ']')
        match r2.dropWhile (fun d => d ≠ ']') with
        | ']' :: r4 =>
          if 2 ≤ run.length ∧ run.getLast? = some bslash then
            let matched := bslash :: '[' :: (run ++ [']'])
            let st1 : SanSt :=
              { st with counter := st.counter + 1,
                        mathBlocks := st.mathBlocks ++ [(st.counter, matched)] }
            let (l2, st2) := protectDisplayGo fuel st1 r4
            (mathPlaceholder st.counter ++ l2, st2)
          else keep
        | _ => keep
      | _ => keep
    else keep

def protectDisplay (st : SanSt) (l : List Char) : List Char × SanSt :=
  protectDisplayGo l.length st l

/-- Lazy split: shortest (possibly empty) prefix such that `stop` holds at the
remaining suffix. -/
def lazySplitUntil (stop : List Char → Bool) : List Char → Option (List Char × List Char)
  | [] => if stop [] then some ([], []) else none
  | c :: rest =>
    if stop (c :: rest) then some ([], c :: rest)
    else (lazySplitUntil stop rest).map (fun p => (c :: p.1, p.2))

/-- `sanitized.replace(/\$\$([\s\S]+?)\$\$/g, ...)`: `$$`, a lazy nonempty run
of arbitrary characters, `$$`. -/
def protectDollar2Go : Nat → SanSt → List Char → List Char × SanSt
  | 0, st, l => (l, st)
  | _, st, [] => ([], st)
  | fuel + 1, st, c :: rest =>
    let keep : List Char × SanSt :=
      let (l2, st2) := protectDollar2Go fuel st rest
      (c :: l2, st2)
    match c, rest with
    | '$', '$' :: c2 :: r2 =>
      match lazySplitUntil (fun l => (['$', '$'] : List Char).isPrefixOf l) r2 with
      | some (grown, r3) =>
        let content := c2 :: grown
        let matched := '$' :: '$' :: (content ++ ['$', '$'])
        let st1 : SanSt :=
          { st with counter := st.counter + 1,
                    mathBlocks := st.mathBlocks ++ [(st.counter, matched)] }
        let (l2, st2) := protectDollar2Go fuel st1 (r3.drop 2)
        (mathPlaceholder st.counter ++ l2, st2)
      | none => keep
    | _, _ => keep

def protectDollar2 (st : SanSt) (l : List Char) : List Char × SanSt :=
  protectDollar2Go l.length st l

/-- `sanitized.replace(/\\verb([^a-zA-Z])(.+?)\1/g, ...)`: `\verb`, a
non-letter delimiter, a lazy nonempty run of non-line-terminator characters,
the same delimiter again.  The lazy run always takes one first character —
which may itself be the delimiter — and then extends to the first delimiter
after it, so `\verb||a|` is protected with content `|a`. -/
def protectVerbGo : Nat → SanSt → List Char → List Char × SanSt
  | 0, st, l => (l, st)
  | _, st, [] => ([], st)
  | fuel + 1, st, c :: rest =>
    let keep : List Char × SanSt :=
      let (l2, st2) := protectVerbGo fuel st rest
      (c :: l2, st2)
    if (("\\verb".data : List Char)).isPrefixOf (c :: rest) then
      match (c :: rest).drop 5 with
      | d :: c0 :: r2 =>
        if isAsciiLetter d ∨ c0 = '\n' ∨ c0 = '\r' then keep
        else
          let more := r2.takeWhile (fun x => x ≠ d ∧ x ≠ '\n' ∧ x ≠ '\r')
          match r2.dropWhile (fun x => x ≠ d ∧ x ≠ '\n' ∧ x ≠ '\r') with
          | e :: r3 =>
            if e = d then
              let content := c0 :: more
              let matched := ("\\verb".data : List Char) ++ d :: (content ++ [d])
              let st1 : SanSt :=
                { st with counter := st.counter + 1,
                          verbBlocks := st.verbBlocks ++ [(st.counter, matched)] }
              let (l2, st2) := protectVerbGo fuel st1 r3
              (verbPlaceholder st.counter ++ l2, st2)
            else keep
          | [] => keep
      | _ => keep
    else keep

def protectVerb (st : SanSt) (l : List Char) : List Char × SanSt :=
  protectVerbGo l.length st l

/-- Split on line feeds; `splitLines l` always has one more entry than `l` has
line feeds, so `joinLines (splitLines l) = l`. -/
def splitLines : List Char → List (List Char)
  | [] => [[]]
  | c :: rest =>
    if c = '\n' then [] :: splitLines rest
    else
      match splitLines rest with
      | [] => [[c]]
      | line :: more => (c :: line) :: more

def joinLines (ls : List (List Char)) : List Char := List.intercalate ['\n'] ls

/-- One line against `/^[ \t]*%.*/` (with `/m`, a match never crosses a line
feed): optional spaces/tabs, `%`, then greedily to the end of the line (`.`
stops at a carriage return).  Returns the matched text and the unmatched tail
of the line. -/
def commentLineMatch (line : List Char) : Option (List Char × List Char) :=
  let ws := line.takeWhile (fun c => c = ' ' ∨ c = '\t')
  match line.dropWhile (fun c => c = ' ' ∨ c = '\t') with
  | '%' :: r2 =>
    let body := r2.takeWhile (fun c => c ≠ '\r')
    some (ws ++ '%' :: body, r2.dropWhile (fun c => c ≠ '\r'))
  | _ => none

/-- `sanitized.replace(/^[ \t]*%.*/gm, ...)`: comment lines are replaced by
`LATEXCOMMENT<i>` placeholders, recorded (placeholder index ↦ matched text)
in discovery order. -/
def protectComments (l : List Char) : List Char × List (Nat × List Char) × Nat :=
  let folded :=
    (splitLines l).foldl
      (fun (acc : List (List Char) × List (Nat × List Char) × Nat) line =>
        match commentLineMatch line with
        | some (matched, leftover) =>
          (acc.1 ++ [commentPlaceholder acc.2.2 ++ leftover],
            acc.2.1 ++ [(acc.2.2, matched)], acc.2.2 + 1)
        | none => (acc.1 ++ [line], acc.2.1, acc.2.2))
      ([], [], 0)
  (joinLines folded.1, folded.2.1, folded.2.2)

/-- `sanitized.replace(/(?<!\\)_(?![_\s])/g, '\\_')`. -/
def escUnderscoreStep (prev : Option Char) : List Char → Option (List Char × Nat)
  | '_' :: rest =>
    let nextOk : Bool :=
      match rest with
      | [] => true
      | d :: _ => !(d = '_' || isJsWs d)
    if prev ≠ some bslash ∧ nextOk then
      some (("\\_".data : List Char), 1)
    else none
  | _ => none

/-- `sanitized.replace(/(?<!\\)c/g, '\\c')` for a single character `c`. -/
def escCharStep (target : Char) (rep : List Char) (prev : Option Char) :
    List Char → Option (List Char × Nat)
  | c :: _ =>
    if c = target ∧ prev ≠ some bslash then some (rep, 1) else none
  | [] => none

/-- Length of the leading run of `\_` pairs. -/
def countEscUnderscorePairs : List Char → Nat
  | '\\' :: '_' :: rest => 1 + countEscUnderscorePairs rest
  | _ => 0

/-- The source computes `Math.min(match.length * factor, 4)` in IEEE doubles
and splices the JS decimal rendering of the result into
`\underline{\hspace{<len>cm}}`.  The factors are 0.15 (escaped runs, match
length `2*n`) and 0.3 (raw runs, match length `m`), so the value is
`n*0.3` resp. `m*0.3` capped at 4.  It is modelled as an exact number of
tenths; at every match length arising in this development (pair counts 2 and
raw run lengths 2, 4, 5, 15) the double computation is exact and its JS
rendering agrees with the exact-tenths rendering used here. -/
def fmtTenths (t : Nat) : List Char :=
  (if t % 10 = 0 then toString (t / 10)
   else toString (t / 10) ++ "." ++ toString (t % 10)).data

def blankConstruct (tenths : Nat) : List Char :=
  ("\\underline\x7b\\hspace\x7b".data : List Char) ++ fmtTenths tenths ++ ("cm\x7d\x7d".data)

/-- `sanitized.replace(/(\\_){2,}/g, ...)`: a greedy maximal run of `n ≥ 2`
`\_` pairs (match length `2n`) becomes a blank of `min(2n*0.15, 4)` cm. -/
def escBlankStep (cs : List Char) : Option (List Char × Nat) :=
  let n := countEscUnderscorePairs cs
  if 2 ≤ n then some (blankConstruct (min (3 * n) 40), 2 * n) else none

/-- `sanitized.replace(/_{2,}/g, ...)`: a greedy maximal run of `m ≥ 2` raw
underscores becomes a blank of `min(m*0.3, 4)` cm. -/
def rawBlankStep (cs : List Char) : Option (List Char × Nat) :=
  let run := cs.takeWhile (fun c => c = '_')
  if 2 ≤ run.length then some (blankConstruct (min (3 * run.length) 40), run.length)
  else none

/-- The restore loop `for (let i = counter - 1; i >= 0; i--)`: for each index
(descending) the first occurrence of `MATHBLOCK<i>` resp. `VERBBLOCK<i>` is
replaced — with JS `$`-substitution, since the pattern is a string — by the
recorded block, when index `i` is populated.  The argument is the number of
indices still to process, so `restoreMathVerb math verb counter` starts at
`counter - 1`. -/
def restoreMathVerb (math verb : List (Nat × List Char)) : Nat → List Char → List Char
  | 0, l => l
  | i + 1, l =>
    let l1 := match math.lookup i with
      | some b => replaceFirstJS (mathPlaceholder i) b l
      | none => l
    let l2 := match verb.lookup i with
      | some b => replaceFirstJS (verbPlaceholder i) b l1
      | none => l1
    restoreMathVerb math verb i l2

/-- The comment restore loop, same shape. -/
def restoreComments (comments : List (Nat × List Char)) : Nat → List Char → List Char
  | 0, l => l
  | i + 1, l =>
    let l1 := match comments.lookup i with
      | some b => replaceFirstJS (commentPlaceholder i) b l
      | none => l
    restoreComments comments i l1

/-- `sanitized.replace(/\\textbf\s*\{/g, '\\textbf{')` (and the `\textit`
twin): the command, optional whitespace, an opening brace. -/
def fixCmdSpaceStep (cmd : List Char) (cs : List Char) : Option (List Char × Nat) :=
  if cmd.isPrefixOf cs then
    let r := cs.drop cmd.length
    let ws := r.takeWhile isJsWs
    match r.dropWhile isJsWs with
    | c :: _ =>
      if c = lbrace then some (cmd ++ [lbrace], cmd.length + ws.length + 1) else none
    | [] => none
  else none

/-- Count of `(?<!\\)\{` occurrences (resp. `(?<!\\)\}`): feeds only the
advisory unbalanced-brace `console.warn`; it never changes the output. -/
def unescapedBraceCountGo (target : Char) : Option Char → List Char → Nat
  | _, [] => 0
  | prev, c :: rest =>
    (if c = target ∧ prev ≠ some bslash then 1 else 0) +
      unescapedBraceCountGo target (some c) rest

def unescapedBraceCount (target : Char) (l : List Char) : Nat :=
  unescapedBraceCountGo target none l

/-- The five legacy `enumerate` rewrites at the top of `sanitizeLatex`
(literal patterns, literal replacements). -/
def fixEnumerates (l : List Char) : List Char :=
  let l := replaceAllLit ("\\begin\x7benumerate\x7d[(a)]".data)
    ("\\begin\x7benumerate\x7d[label=(\\alph*)]".data) l
  let l := replaceAllLit ("\\begin\x7benumerate\x7d[(i)]".data)
    ("\\begin\x7benumerate\x7d[label=(\\roman*)]".data) l
  let l := replaceAllLit ("\\begin\x7benumerate\x7d[(1)]".data)
    ("\\begin\x7benumerate\x7d[label=(\\arabic*)]".data) l
  let l := replaceAllLit ("\\begin\x7benumerate\x7d[a)]".data)
    ("\\begin\x7benumerate\x7d[label=\\alph*)]".data) l
  let l := replaceAllLit ("\\begin\x7benumerate\x7d[1)]".data)
    ("\\begin\x7benumerate\x7d[label=\\arabic*)]".data) l
  l

/-- The full sanitizer, pass for pass in source order.  The final
`replace(/\\\\/g, '\\\\')` rewrites every double backslash to itself. -/
def sanitizeLatex (s : String) : String :=
  let l1 := fixEnumerates s.data
  let st0 : SanSt := ⟨0, [], []⟩
  let (l2, st1) := protectInline st0 l1
  let (l3, st2) := protectDisplay st1 l2
  let (l4, st3) := protectDollar2 st2 l3
  let (l5, st4) := protectVerb st3 l4
  let (l6, comments, ccount) := protectComments l5
  let l7 := runPassP escUnderscoreStep l6
  let l8 := runPassP (escCharStep '&' ("\\&".data)) l7
  let l9 := runPassP (escCharStep '%' ("\\%".data)) l8
  let l10 := runPassP (escCharStep '#' ("\\#".data)) l9
  let l11 := runPassP (escCharStep '^' ("\\^\x7b\x7d".data)) l10
  let l12 := runPass escBlankStep l11
  let l13 := runPass rawBlankStep l12
  let l14 := restoreMathVerb st4.mathBlocks st4.verbBlocks st4.counter l13
  let l15 := restoreComments comments ccount l14
  let l16 := replaceAllLit ("\\\\".data) ("\\\\".data) l15
  let l17 := runPass (fixCmdSpaceStep ("\\textbf".data)) l16
  let l18 := runPass (fixCmdSpaceStep ("\\textit".data)) l17
  String.mk l18

/-! ### Extractor (`parseQuestions` in `LatexPreview.tsx`) -/

/-- The `Question` record of `LatexPreview.tsx`:
`{ number: number; question: string; solution: string }`. -/
structure Question where
  number : Nat
  question : String
  solution : String
deriving DecidableEq, Repr

/-- One regex match of a header pattern: `match[1]` (the captured digits),
`match[2]` and `match[3]` (which capture marks/content in pattern-dependent
positions; an unparticipating group is `none`). -/
structure RawMatch where
  num : List Char
  g2 : Option (List Char)
  g3 : Option (List Char)
deriving Repr

def litPfx? (pat l : List Char) : Option (List Char) :=
  if pat.isPrefixOf l then some (l.drop pat.length) else none

def digits1? (l : List Char) : Option (List Char × List Char) :=
  let d := l.takeWhile (fun c => isDigitC c)
  if d.isEmpty then none else some (d, l.drop d.length)

def skipWs (l : List Char) : List Char := l.dropWhile (fun c => isJsWs c)

/-- Whether a JS `/m` `^` anchor matches here: at the start of input or just
after a line terminator. -/
def atLineStart : Option Char → Bool
  | none => true
  | some c => c = '\n' || c = '\r'

def endDocPat : List Char := "\\end\x7bdocument\x7d".data

def firstSome {α β : Type} : List α → (α → Option β) → Option β
  | [], _ => none
  | x :: r, f =>
    match f x with
    | some b => some b
    | none => firstSome r f

/-- The character of `orig` just before the suffix `rest` (for resuming `^`
anchors and lookbehinds mid-match). -/
def prevAt (orig rest : List Char) (fallback : Option Char) : Option Char :=
  match (orig.take (orig.length - rest.length)).getLast? with
  | some c => some c
  | none => fallback

/-- Lazy content growth `([\s\S]*?)` up to the first position where the
lookahead `stop` holds; `stop` receives the previous input character (for `^`)
and the remaining input.  All lookaheads used below hold at the end of input
(they contain a `$` alternative), so the content always matches. -/
def lazyGrow (stop : Option Char → List Char → Bool) :
    Nat → Option Char → List Char → List Char × List Char
  | 0, _, l => ([], l)
  | _, _, [] => ([], [])
  | fuel + 1, prev, c :: rest =>
    if stop prev (c :: rest) then ([], c :: rest)
    else
      let (a, b) := lazyGrow stop fuel (some c) rest
      (c :: a, b)

/-- The lookahead `<pre>\d+\}` (a literal header opener, digits, a closing
brace), used by the patterns whose next-header lookahead is
`\\noindent\\textbf\{Q\.\d+\}` or `\\textbf\{Q\.\d+\}`. -/
def qHeaderAfter (pre : List Char) (l : List Char) : Bool :=
  match litPfx? pre l with
  | some r =>
    match digits1? r with
    | some (_, r2) => r2.head? = some rbrace
    | none => false
  | none => false

/-- Earliest occurrence of one of the literal alternatives `alts` (tried in
order at each position): returns (text before, matched alternative, text
after). -/
def findMarker (alts : List (List Char)) :
    Nat → List Char → Option (List Char × List Char × List Char)
  | 0, _ => none
  | fuel + 1, l =>
    match alts.find? (fun p => p.isPrefixOf l) with
    | some p => some ([], p, l.drop p.length)
    | none =>
      match l with
      | [] => none
      | c :: rest => (findMarker alts fuel rest).map (fun t => (c :: t.1, t.2.1, t.2.2))

/-! #### The seven header patterns, in cascade order -/

/-- Pattern 1 header:
`\\noindent\\textbf\{Q\.(\d+)\}\s*\\hfill\s*\\textbf\{\[([^\]]+)\]\}([\s\S]*?)`
with lookahead `(?=\\noindent\\textbf\{Q\.\d+\}|\\end\{document\}|$)`
(`$` without `/m` is end of input). -/
def p1Stop (_ : Option Char) (l : List Char) : Bool :=
  l.isEmpty || endDocPat.isPrefixOf l ||
    qHeaderAfter ("\\noindent\\textbf\x7bQ.".data) l

def p1MatchAt (l : List Char) : Option (RawMatch × List Char) := do
  let r1 ← litPfx? ("\\noindent\\textbf\x7bQ.".data) l
  let (ds, r2) ← digits1? r1
  let r3 ← litPfx? [rbrace] r2
  let r4 ← litPfx? ("\\hfill".data) (skipWs r3)
  let r5 ← litPfx? ("\\textbf\x7b[".data) (skipWs r4)
  let marks := r5.takeWhile (fun c => c ≠ ']')
  if marks.isEmpty then failure
  let r6 ← litPfx? ("]\x7d".data) (r5.dropWhile (fun c => c ≠ ']'))
  let (content, rest) := lazyGrow p1Stop r6.length (prevAt l r6 none) r6
  pure (⟨ds, some marks, some content⟩, rest)

/-- Pattern 2 header:
`\\textbf\{Q\.(\d+)\}\s*\\hfill\s*\\textbf\{\[([^\]]+)\]\}([\s\S]*?)` with
lookahead `(?=\\textbf\{Q\.\d+\}|\\end\{document\}|$)`. -/
def p2Stop (_ : Option Char) (l : List Char) : Bool :=
  l.isEmpty || endDocPat.isPrefixOf l || qHeaderAfter ("\\textbf\x7bQ.".data) l

def p2MatchAt (l : List Char) : Option (RawMatch × List Char) := do
  let r1 ← litPfx? ("\\textbf\x7bQ.".data) l
  let (ds, r2) ← digits1? r1
  let r3 ← litPfx? [rbrace] r2
  let r4 ← litPfx? ("\\hfill".data) (skipWs r3)
  let r5 ← litPfx? ("\\textbf\x7b[".data) (skipWs r4)
  let marks := r5.takeWhile (fun c => c ≠ ']')
  if marks.isEmpty then failure
  let r6 ← litPfx? ("]\x7d".data) (r5.dropWhile (fun c => c ≠ ']'))
  let (content, rest) := lazyGrow p2Stop r6.length (prevAt l r6 none) r6
  pure (⟨ds, some marks, some content⟩, rest)

/-- For pattern 2b, `[\s\S]*?\[([^\]]+)\]`: the earliest `[` that opens a
nonempty `]`-free span closed by `]`; a `[` that cannot be closed is absorbed
by the lazy run. -/
def p2bFindBracket : Nat → List Char → Option (List Char × List Char)
  | 0, _ => none
  | _, [] => none
  | fuel + 1, c :: rest =>
    if c = '[' then
      let run := rest.takeWhile (fun d => d ≠ ']')
      match rest.dropWhile (fun d => d ≠ ']') with
      | ']' :: r2 => if run.isEmpty then p2bFindBracket fuel rest else some (run, r2)
      | _ => p2bFindBracket fuel rest
    else p2bFindBracket fuel rest

/-- Pattern 2b header:
`\\textbf\{Q\.(\d+)\}[\s\S]*?\[([^\]]+)\]([\s\S]*?)` with the same lookahead
as pattern 2. -/
def p2bMatchAt (l : List Char) : Option (RawMatch × List Char) := do
  let r1 ← litPfx? ("\\textbf\x7bQ.".data) l
  let (ds, r2) ← digits1? r1
  let r3 ← litPfx? [rbrace] r2
  let (marks, r4) ← p2bFindBracket (r3.length + 1) r3
  let (content, rest) := lazyGrow p2Stop r4.length (prevAt l r4 none) r4
  pure (⟨ds, some marks, some content⟩, rest)

/-- Pattern 3 header:
`\\subsection\*\{(?:Q\.|Question)\s*(\d+)\s*\[([^\]]+)\]\}([\s\S]*?)` with
lookahead `(?=\\subsection\*\{(?:Q\.|Question)|\\end\{document\}|$)`. -/
def p3Stop (_ : Option Char) (l : List Char) : Bool :=
  l.isEmpty || endDocPat.isPrefixOf l ||
    (match litPfx? ("\\subsection*\x7b".data) l with
     | some r => ("Q.".data).isPrefixOf r || ("Question".data).isPrefixOf r
     | none => false)

def p3MatchAt (l : List Char) : Option (RawMatch × List Char) := do
  let r1 ← litPfx? ("\\subsection*\x7b".data) l
  let r2 ←
    match litPfx? ("Q.".data) r1 with
    | some a => some a
    | none => litPfx? ("Question".data) r1
  let (ds, r3) ← digits1? (skipWs r2)
  let r4 ← litPfx? ['['] (skipWs r3)
  let marks := r4.takeWhile (fun c => c ≠ ']')
  if marks.isEmpty then failure
  let r5 ← litPfx? ("]\x7d".data) (r4.dropWhile (fun c => c ≠ ']'))
  let (content, rest) := lazyGrow p3Stop r5.length (prevAt l r5 none) r5
  pure (⟨ds, some marks, some content⟩, rest)

/-- The pattern 4 header lookahead
`(?:^|\\noindent\s*)(?:\\textbf\{)?(?:Q\.?|Question)\s*\d+` (any viable
reading suffices for a lookahead). -/
def p4HeaderLookahead (prev : Option Char) (l : List Char) : Bool :=
  let starts : List (List Char) :=
    (if atLineStart prev then [l] else []) ++
    (match litPfx? ("\\noindent".data) l with
     | some r => [skipWs r]
     | none => [])
  starts.any fun r0 =>
    let opts : List (List Char) :=
      match litPfx? ("\\textbf\x7b".data) r0 with
      | some r1 => [r1, r0]
      | none => [r0]
    opts.any fun r1 =>
      let qforms : List (List Char) :=
        (match litPfx? ("Q.".data) r1 with | some a => [a] | none => []) ++
        (match litPfx? ("Q".data) r1 with | some a => [a] | none => []) ++
        (match litPfx? ("Question".data) r1 with | some a => [a] | none => [])
      qforms.any fun r2 => (digits1? (skipWs r2)).isSome

/-- Pattern 4 content lookahead (the pattern carries `/m`, so `$` also
matches before a line terminator):
`(?=(?:^|\\noindent\s*)(?:\\textbf\{)?(?:Q\.?|Question)\s*\d+|\\end\{document\}|$)`. -/
def p4Stop (prev : Option Char) (l : List Char) : Bool :=
  l.isEmpty || l.head? = some '\n' || l.head? = some '\r' ||
    endDocPat.isPrefixOf l || p4HeaderLookahead prev l

/-- The lazy core of the pattern 4 marks group, `([^\]\)]*?marks?)`: the
shortest `]`/`)`-free run followed by `mark`, with a greedy optional `s`. -/
def p4MarksInner : Nat → List Char → Option (List Char × List Char)
  | 0, _ => none
  | _, [] => none
  | fuel + 1, c :: rest =>
    if ("mark".data).isPrefixOf (c :: rest) then
      let r := (c :: rest).drop 4
      if r.head? = some 's' then some (("marks".data), r.drop 1)
      else some (("mark".data), r)
    else if c = ']' ∨ c = ')' then none
    else (p4MarksInner fuel rest).map (fun p => (c :: p.1, p.2))

/-- The optional pattern 4 marks group `(?:\s*[\(\[]?([^\]\)]*?marks?)[\]\)]?)?`:
greedily taken when its body matches, otherwise skipped without consuming. -/
def p4Marks (l : List Char) : Option (List Char) × List Char :=
  let ws := skipWs l
  let afterOpen := if ws.head? = some '(' ∨ ws.head? = some '[' then ws.drop 1 else ws
  match p4MarksInner (afterOpen.length + 1) afterOpen with
  | some (cap, r) =>
    let r2 := if r.head? = some ']' ∨ r.head? = some ')' then r.drop 1 else r
    (some cap, r2)
  | none => (none, l)

/-- Pattern 4 header: `(?:^|\\noindent\s*)(?:\\textbf\{)?(?:Q\.?|Question)\s*`
`(\d+)(?:\})?(?:\s*[\(\[]?([^\]\)]*?marks?)[\]\)]?)?[:\.\)]?\s*([\s\S]*?)`
followed by the pattern 4 lookahead.  The alternation attempts (`^` before
`\noindent`; with `\textbf{` before without; `Q.`, `Q`, `Question` in order)
are tried in JS preference order; once the digits match, the rest of the
pattern always succeeds, so no further backtracking can occur. -/
def p4MatchAt (prev : Option Char) (l : List Char) : Option (RawMatch × List Char) :=
  let starts : List (List Char) :=
    (if atLineStart prev then [l] else []) ++
    (match litPfx? ("\\noindent".data) l with
     | some r => [skipWs r]
     | none => [])
  firstSome starts fun r0 =>
    let opts : List (List Char) :=
      match litPfx? ("\\textbf\x7b".data) r0 with
      | some r1 => [r1, r0]
      | none => [r0]
    firstSome opts fun r1 =>
      let qforms : List (List Char) :=
        (match litPfx? ("Q.".data) r1 with | some a => [a] | none => []) ++
        (match litPfx? ("Q".data) r1 with | some a => [a] | none => []) ++
        (match litPfx? ("Question".data) r1 with | some a => [a] | none => [])
      firstSome qforms fun r2 =>
        match digits1? (skipWs r2) with
        | none => none
        | some (ds, r4) =>
          let r5 := if r4.head? = some rbrace then r4.drop 1 else r4
          let (marks, r6) := p4Marks r5
          let r7 :=
            if r6.head? = some ':' ∨ r6.head? = some '.' ∨ r6.head? = some ')' then
              r6.drop 1
            else r6
          let r8 := skipWs r7
          let (content, rest) := lazyGrow p4Stop r8.length (prevAt l r8 prev) r8
          some (⟨ds, marks, some content⟩, rest)

/-- Pattern 5 header:
`\\section\*\{(?:Question\s+)?(\d+)(?:\s*\[([^\]]+)\])?\}([\s\S]*?)` with
lookahead `(?=\\section\*\{|\\end\{document\}|$)`. -/
def p5Stop (_ : Option Char) (l : List Char) : Bool :=
  l.isEmpty || endDocPat.isPrefixOf l || ("\\section*\x7b".data).isPrefixOf l

def p5MatchAt (l : List Char) : Option (RawMatch × List Char) := do
  let r1 ← litPfx? ("\\section*\x7b".data) l
  let starts : List (List Char) :=
    (match litPfx? ("Question".data) r1 with
     | some ra =>
       let ws := ra.takeWhile (fun c => isJsWs c)
       if ws.isEmpty then [r1] else [ra.drop ws.length, r1]
     | none => [r1])
  firstSome starts fun r2 =>
    match digits1? r2 with
    | none => none
    | some (ds, r3) =>
      let withMarks : Option (Option (List Char) × List Char) :=
        match skipWs r3 with
        | '[' :: r5 =>
          let run := r5.takeWhile (fun d => d ≠ ']')
          if run.isEmpty then none
          else
            match r5.dropWhile (fun d => d ≠ ']') with
            | ']' :: r6 => some (some run, r6)
            | _ => none
        | _ => none
      let cands : List (Option (List Char) × List Char) :=
        (match withMarks with | some p => [p] | none => []) ++ [(none, r3)]
      firstSome cands fun mr =>
        match litPfx? [rbrace] mr.2 with
        | none => none
        | some r8 =>
          let (content, rest) := lazyGrow p5Stop r8.length (prevAt l r8 none) r8
          some (⟨ds, mr.1, some content⟩, rest)

/-- The pattern 6 lookahead piece `\s*\d+[\.\)]`. -/
def p6NumDot (l : List Char) : Bool :=
  match digits1? (skipWs l) with
  | some (_, r2) => r2.head? = some '.' || r2.head? = some ')'
  | none => false

/-- Pattern 6 content lookahead (`/m`):
`(?=(?:^|\n)\s*\d+[\.\)]|\\end\{document\}|$)`; a position before a line
terminator already stops via `$`, which subsumes the `\n` alternative. -/
def p6Stop (prev : Option Char) (l : List Char) : Bool :=
  l.isEmpty || l.head? = some '\n' || l.head? = some '\r' ||
    endDocPat.isPrefixOf l || (atLineStart prev && p6NumDot l)

/-- Pattern 6 header: `(?:^|\n)\s*(\d+)[\.\)]\s*([\s\S]*?)` followed by the
pattern 6 lookahead.  The `^` alternative is zero-width and tried first; the
`\n` alternative consumes its line feed. -/
def p6MatchAt (prev : Option Char) (l : List Char) : Option (RawMatch × List Char) :=
  let body : List Char → Option (RawMatch × List Char) := fun r =>
    let r1 := skipWs r
    match digits1? r1 with
    | some (ds, r2) =>
      match r2 with
      | p :: r3 =>
        if p = '.' ∨ p = ')' then
          let r4 := skipWs r3
          let (content, rest) := lazyGrow p6Stop r4.length (prevAt l r4 prev) r4
          some (⟨ds, some content, none⟩, rest)
        else none
      | [] => none
    | none => none
  if atLineStart prev then
    match body l with
    | some res => some res
    | none =>
      match l with
      | '\n' :: r => body r
      | _ => none
  else
    match l with
    | '\n' :: r => body r
    | _ => none

/-! #### Scanning, markers, acceptance filter, dedup and sort -/

/-- `regex.exec` loop with `/g`: find matches left to right, resuming after
each match; on failure advance one character. -/
def scanWith (matchAt : Option Char → List Char → Option (RawMatch × List Char)) :
    Nat → Option Char → List Char → List RawMatch
  | 0, _, _ => []
  | _, _, [] => []
  | fuel + 1, prev, c :: rest =>
    match matchAt prev (c :: rest) with
    | some (m, l2) =>
      let consumed := (c :: rest).take ((c :: rest).length - l2.length)
      m :: scanWith matchAt fuel consumed.getLast? l2
    | none => scanWith matchAt fuel (some c) rest

def p1Scan (l : List Char) : List RawMatch :=
  scanWith (fun _ cs => p1MatchAt cs) l.length none l

def p2Scan (l : List Char) : List RawMatch :=
  scanWith (fun _ cs => p2MatchAt cs) l.length none l

def p2bScan (l : List Char) : List RawMatch :=
  scanWith (fun _ cs => p2bMatchAt cs) l.length none l

def p3Scan (l : List Char) : List RawMatch :=
  scanWith (fun _ cs => p3MatchAt cs) l.length none l

def p4Scan (l : List Char) : List RawMatch :=
  scanWith p4MatchAt l.length none l

def p5Scan (l : List Char) : List RawMatch :=
  scanWith (fun _ cs => p5MatchAt cs) l.length none l

def p6Scan (l : List Char) : List RawMatch :=
  scanWith p6MatchAt l.length none l

/-- JS `String.prototype.trim` (ASCII whitespace fragment). -/
def jsTrim (l : List Char) : List Char :=
  ((l.dropWhile (fun c => isJsWs c)).reverse.dropWhile (fun c => isJsWs c)).reverse

/-- JS `toLowerCase` (ASCII fragment). -/
def toLowerL (l : List Char) : List Char := l.map Char.toLower

/-- `parseInt` on a capture consisting of one or more decimal digits. -/
def parseIntDigits (ds : List Char) : Nat :=
  ds.foldl (fun acc c => 10 * acc + (c.toNat - 48)) 0

/-- `match[3] || match[2]` with JS falsiness: `undefined` and the empty string
are falsy. -/
def jsOrStr (a b : Option (List Char)) : Option (List Char) :=
  match a with
  | some s => if s.isEmpty then b else some s
  | none => b

def truthyStr : Option (List Char) → Bool
  | some s => !s.isEmpty
  | none => false

/-- The boilerplate filter on `lowerContent = fullContent.toLowerCase()`:
`'instructions to candidates'`, `'general instructions'`,
`'answer any' && fullContent.length < 100`, `'examination paper'`,
`'duration:' && 'maximum marks:'`. -/
def boilerplateReject (fullContent : List Char) : Bool :=
  let lower := toLowerL fullContent
  containsSub ("instructions to candidates".data) lower ||
  containsSub ("general instructions".data) lower ||
  (containsSub ("answer any".data) lower && decide (fullContent.length < 100)) ||
  containsSub ("examination paper".data) lower ||
  (containsSub ("duration:".data) lower && containsSub ("maximum marks:".data) lower)

/-- The per-candidate acceptance filter and prompt/solution split of
`parseQuestions`.  `isNaN(parseInt(match[1]))` is never true since `match[1]`
is one or more digits, and the `!fullContent` falsy test is the
`truthyStr` check. -/
def acceptCandidates (solSplit : List Char → Option (List Char × List Char))
    (ms : List RawMatch) : List Question :=
  ms.foldl
    (fun acc m =>
      let fullContent := jsOrStr m.g3 m.g2
      if !truthyStr fullContent then acc
      else
        let fc := fullContent.getD []
        if (jsTrim fc).length < 5 then acc
        else if boilerplateReject fc then acc
        else
          let qs : List Char × List Char :=
            match solSplit fc with
            | some (a, b) => (jsTrim a, jsTrim b)
            | none => (jsTrim fc, [])
          if 5 < qs.1.length then
            acc ++ [⟨parseIntDigits m.num, String.mk qs.1, String.mk qs.2⟩]
          else acc)
    []

/-- Pattern 1 solution split:
`([\s\S]*?)\\noindent\\textbf\{Solution:\}([\s\S]*?)(?=\\noindent\\rule|$)`. -/
def sol1Split (fc : List Char) : Option (List Char × List Char) :=
  (findMarker [("\\noindent\\textbf\x7bSolution:\x7d".data)] (fc.length + 1) fc).map
    fun t =>
      let g2 := (lazyGrow (fun _ x => x.isEmpty || ("\\noindent\\rule".data).isPrefixOf x)
        t.2.2.length none t.2.2).1
      (t.1, g2)

/-- Pattern 2 solution split:
`([\s\S]*?)(?:\\textbf\{)?Solution[:\.]?(?:\})?[\s\S]*?([\s\S]*?)$`; the
uncaptured lazy run stays empty and the final capture runs to the end. -/
def sol2Split (fc : List Char) : Option (List Char × List Char) :=
  (findMarker [("\\textbf\x7bSolution".data), ("Solution".data)] (fc.length + 1) fc).map
    fun t =>
      let r := t.2.2
      let r2 := if r.head? = some ':' ∨ r.head? = some '.' then r.drop 1 else r
      let r3 := if r2.head? = some rbrace then r2.drop 1 else r2
      (t.1, r3)

/-- Pattern 2b solution split:
`([\s\S]*?)(?:\\textbf\{)?(?:Solution|Ans)[:\.\)]?(?:\})?[\s\S]*?([\s\S]*?)$`. -/
def sol2bSplit (fc : List Char) : Option (List Char × List Char) :=
  (findMarker [("\\textbf\x7bSolution".data), ("\\textbf\x7bAns".data),
      ("Solution".data), ("Ans".data)] (fc.length + 1) fc).map
    fun t =>
      let r := t.2.2
      let r2 :=
        if r.head? = some ':' ∨ r.head? = some '.' ∨ r.head? = some ')' then r.drop 1
        else r
      let r3 := if r2.head? = some rbrace then r2.drop 1 else r2
      (t.1, r3)

/-- Pattern 3 solution split:
`([\s\S]*?)\\subsection\*\{Solution\}([\s\S]*?)(?=\\vspace|$)`. -/
def sol3Split (fc : List Char) : Option (List Char × List Char) :=
  (findMarker [("\\subsection*\x7bSolution\x7d".data)] (fc.length + 1) fc).map
    fun t =>
      let g2 := (lazyGrow (fun _ x => x.isEmpty || ("\\vspace".data).isPrefixOf x)
        t.2.2.length none t.2.2).1
      (t.1, g2)

/-- Pattern 4 solution split:
`([\s\S]*?)(?:\\textbf\{)?(?:Solution|Answer|Ans)[:\.\)]?(?:\})?[\s\S]*?([\s\S]*?)$`. -/
def sol4Split (fc : List Char) : Option (List Char × List Char) :=
  (findMarker [("\\textbf\x7bSolution".data), ("\\textbf\x7bAnswer".data),
      ("\\textbf\x7bAns".data), ("Solution".data), ("Answer".data),
      ("Ans".data)] (fc.length + 1) fc).map
    fun t =>
      let r := t.2.2
      let r2 :=
        if r.head? = some ':' ∨ r.head? = some '.' ∨ r.head? = some ')' then r.drop 1
        else r
      let r3 := if r2.head? = some rbrace then r2.drop 1 else r2
      (t.1, r3)

/-- Pattern 5 solution split:
`([\s\S]*?)\\section\*\{Solution\}([\s\S]*?)$`. -/
def sol5Split (fc : List Char) : Option (List Char × List Char) :=
  (findMarker [("\\section*\x7bSolution\x7d".data)] (fc.length + 1) fc).map
    fun t => (t.1, t.2.2)

/-- Pattern 6 solution split:
`([\s\S]*?)(?:Solution|Answer|Ans)[:\.\)]?\s*([\s\S]*?)$`. -/
def sol6Split (fc : List Char) : Option (List Char × List Char) :=
  (findMarker [("Solution".data), ("Answer".data), ("Ans".data)] (fc.length + 1) fc).map
    fun t =>
      let r := t.2.2
      let r2 :=
        if r.head? = some ':' ∨ r.head? = some '.' ∨ r.head? = some ')' then r.drop 1
        else r
      (t.1, skipWs r2)

/-- `pat.isPrefixOf` up to ASCII case (the stored pattern is lowercase). -/
def ciPfx (pat : String) (l : List Char) : Bool :=
  toLowerL (l.take pat.length) = pat.data

/-- Section marker 1 (case-insensitive), the alternation
`SECTION:\s*QUESTIONS|Questions Section|QUESTIONS|BEGIN QUESTIONS` tried in
order at each position; returns the matched length. -/
def m1AltAt (l : List Char) : Option Nat :=
  (if ciPfx "section:" l then
     let r := l.drop 8
     let ws := r.takeWhile (fun c => isJsWs c)
     if ciPfx "questions" (r.drop ws.length) then some (8 + ws.length + 9) else none
   else none).orElse fun _ =>
  (if ciPfx "questions section" l then some 17 else none).orElse fun _ =>
  (if ciPfx "questions" l then some 9 else none).orElse fun _ =>
  (if ciPfx "begin questions" l then some 15 else none)

/-- Section marker 1:
`/(?:SECTION:\s*QUESTIONS|...)([\s\S]*?)(?=\\end\{document\}|$)/i`; the code
then uses `match[1] || match[0]`. -/
def marker1Find : Nat → List Char → Option (List Char)
  | 0, _ => none
  | fuel + 1, l =>
    match m1AltAt l with
    | some n =>
      let g1 := (lazyGrow (fun _ r => r.isEmpty || ciPfx "\\end\x7bdocument\x7d" r)
        (l.drop n).length none (l.drop n)).1
      some (if g1.isEmpty then l.take n ++ g1 else g1)
    | none =>
      match l with
      | [] => none
      | _ :: rest => marker1Find fuel rest

/-- Section marker 2:
`/(?:\\end\{tabular\}[\s\S]*?\\end\{tabular\})([\s\S]*?)(?=\\end\{document\}|$)/`. -/
def marker2Find : Nat → List Char → Option (List Char)
  | 0, _ => none
  | fuel + 1, l =>
    let tab := ("\\end\x7btabular\x7d".data : List Char)
    if tab.isPrefixOf l then
      let r := l.drop tab.length
      match idxOfSub tab r with
      | some i =>
        let r2 := r.drop (i + tab.length)
        let g1 := (lazyGrow (fun _ x => x.isEmpty || endDocPat.isPrefixOf x)
          r2.length none r2).1
        some (if g1.isEmpty then l.take (tab.length + i + tab.length) ++ g1 else g1)
      | none =>
        match l with
        | [] => none
        | _ :: rest => marker2Find fuel rest
    else
      match l with
      | [] => none
      | _ :: rest => marker2Find fuel rest

/-- The captured group of section marker 3:
`(\\textbf\{Q|\\noindent[\s\S]*?Q\.|^\s*\d+\.)` (with `/m`). -/
def m3Group (prev : Option Char) (l : List Char) : Option (List Char) :=
  (if ("\\textbf\x7bQ".data : List Char).isPrefixOf l then
     some ("\\textbf\x7bQ".data)
   else none).orElse fun _ =>
  (match litPfx? ("\\noindent".data) l with
   | some r =>
     match findMarker [("Q.".data)] (r.length + 1) r with
     | some t => some (("\\noindent".data) ++ t.1 ++ t.2.1)
     | none => none
   | none => none).orElse fun _ =>
  (if atLineStart prev then
     let ws := l.takeWhile (fun c => isJsWs c)
     match digits1? (l.drop ws.length) with
     | some (ds, r2) => if r2.head? = some '.' then some (ws ++ ds ++ ['.']) else none
     | none => none
   else none)

/-- At one start position: `\end{enumerate}` then greedy `[\s\S]{0,200}`
(longest first) then the captured group; the previous character at the group
position is the last of the consumed text. -/
def m3Desc (rem : List Char) : Nat → Option (List Char)
  | 0 => none
  | k + 1 =>
    let kk := k
    let prev : Option Char := if kk = 0 then some rbrace else (rem.take kk).getLast?
    match m3Group prev (rem.drop kk) with
    | some cap => some cap
    | none => m3Desc rem kk

def marker3At (l : List Char) : Option (List Char) :=
  match litPfx? ("\\end\x7benumerate\x7d".data) l with
  | none => none
  | some rem => m3Desc rem (min 200 rem.length + 1)

/-- Section marker 3:
`/(?:\\end\{enumerate\}[\s\S]{0,200})(\\textbf\{Q|\\noindent[\s\S]*?Q\.|^\s*\d+\.)/m`;
`match[1]` is the captured (nonempty) header fragment, so
`match[1] || match[0]` is `match[1]`. -/
def marker3Find : Nat → List Char → Option (List Char)
  | 0, _ => none
  | fuel + 1, l =>
    match marker3At l with
    | some cap => some cap
    | none =>
      match l with
      | [] => none
      | _ :: rest => marker3Find fuel rest

/-- The body narrowing of `parseQuestions`: drop everything before
`\begin{document}` when present, then replace the content by the first
matching section marker's selection. -/
def narrowContent (content : List Char) : List Char :=
  let qc :=
    match idxOfSub ("\\begin\x7bdocument\x7d".data) content with
    | some i => content.drop i
    | none => content
  match marker1Find (qc.length + 1) qc with
  | some r => r
  | none =>
    match marker2Find (qc.length + 1) qc with
    | some r => r
    | none =>
      match marker3Find (qc.length + 1) qc with
      | some r => r
      | none => qc

/-- The pattern cascade: try the seven patterns in order, stopping at the
first one that yields at least one accepted question. -/
def patternCascade (qc : List Char) : List Question :=
  let r1 := acceptCandidates sol1Split (p1Scan qc)
  if !r1.isEmpty then r1 else
  let r2 := acceptCandidates sol2Split (p2Scan qc)
  if !r2.isEmpty then r2 else
  let r2b := acceptCandidates sol2bSplit (p2bScan qc)
  if !r2b.isEmpty then r2b else
  let r3 := acceptCandidates sol3Split (p3Scan qc)
  if !r3.isEmpty then r3 else
  let r4 := acceptCandidates sol4Split (p4Scan qc)
  if !r4.isEmpty then r4 else
  let r5 := acceptCandidates sol5Split (p5Scan qc)
  if !r5.isEmpty then r5 else
  let r6 := acceptCandidates sol6Split (p6Scan qc)
  if !r6.isEmpty then r6 else
  []

/-- One insertion into `new Map(...)` keyed by `number`: inserting an existing
key keeps its position and overwrites its value; a new key is appended. -/
def dedupStep (acc : List Question) (q : Question) : List Question :=
  if acc.any (fun p => p.number = q.number) then
    acc.map (fun p => if p.number = q.number then q else p)
  else acc ++ [q]

/-- `new Map(parsedQuestions.map(q => [q.number, q])).values()`: insertion
order with value overwrite on repeated keys. -/
def dedupByNumber (qs : List Question) : List Question :=
  qs.foldl dedupStep []

/-- `.sort((a, b) => a.number - b.number)`: a sort by `number`.  The JS sort
is stable, and `dedupByNumber` output has pairwise distinct numbers, so any
comparison sort by `number` computes the same list; insertion sort is used. -/
def sortByNumber (qs : List Question) : List Question :=
  qs.insertionSort (fun a b => a.number ≤ b.number)

/-- The full extractor `parseQuestions` of `LatexPreview.tsx`. -/
def parseQuestions (content : String) : List Question :=
  sortByNumber (dedupByNumber (patternCascade (narrowContent content.data)))

/-! ### Renderer (`formatContent` in `LatexPreview.tsx`) -/

/-- `\{[^}]*\}`: an opening brace, a greedy `}`-free run, a closing brace.
Returns (inner text, rest). -/
def braceGroup? (l : List Char) : Option (List Char × List Char) :=
  match l with
  | c :: r =>
    if c = lbrace then
      let run := r.takeWhile (fun d => d ≠ rbrace)
      match r.dropWhile (fun d => d ≠ rbrace) with
      | d :: rest => if d = rbrace then some (run, rest) else none
      | [] => none
    else none
  | [] => none

/-- `\[[^\]]*\]`. -/
def bracketGroup? (l : List Char) : Option (List Char × List Char) :=
  match l with
  | '[' :: r =>
    let run := r.takeWhile (fun d => d ≠ ']')
    match r.dropWhile (fun d => d ≠ ']') with
    | ']' :: rest => some (run, rest)
    | _ => none
  | _ => none

/-- `cmd\{[^}]*\}` rewritten to a fixed replacement. -/
def stepCmdBrace (cmd rep : List Char) (cs : List Char) : Option (List Char × Nat) := do
  let r ← litPfx? cmd cs
  let (_, rest) ← braceGroup? r
  pure (rep, cs.length - rest.length)

/-- `cmd\{[^}]*\}\{[^}]*\}` rewritten to a fixed replacement. -/
def stepCmdBrace2 (cmd rep : List Char) (cs : List Char) : Option (List Char × Nat) := do
  let r ← litPfx? cmd cs
  let (_, r2) ← braceGroup? r
  let (_, rest) ← braceGroup? r2
  pure (rep, cs.length - rest.length)

/-- `cmd(?:\[[^\]]*\])?\{[^}]*\}`: the optional bracket is taken greedily; if
taking it leaves no brace group the engine falls back to not taking it. -/
def stepCmdOptBracketBrace (cmd rep : List Char) (cs : List Char) :
    Option (List Char × Nat) := do
  let r ← litPfx? cmd cs
  match (bracketGroup? r).bind (fun p => braceGroup? p.2) with
  | some (_, rest) => pure (rep, cs.length - rest.length)
  | none =>
    let (_, rest) ← braceGroup? r
    pure (rep, cs.length - rest.length)

/-- `cmd\[[^\]]*\]\{[^}]*\}` (bracket required). -/
def stepCmdBracketBrace (cmd rep : List Char) (cs : List Char) :
    Option (List Char × Nat) := do
  let r ← litPfx? cmd cs
  let (_, r2) ← bracketGroup? r
  let (_, rest) ← braceGroup? r2
  pure (rep, cs.length - rest.length)

/-- `cmd\{([^}]*)\}` rewritten to `pre$1post`. -/
def stepCmdBraceWrap (cmd pre post : List Char) (cs : List Char) :
    Option (List Char × Nat) := do
  let r ← litPfx? cmd cs
  let (inner, rest) ← braceGroup? r
  pure (pre ++ inner ++ post, cs.length - rest.length)

/-- `\{cmd\s+(.*?)\}` rewritten to `pre$1post` (font-size groups): a brace,
the command, at least one whitespace character (greedy), then a lazy
non-line-terminator run up to the closing brace. -/
def stepSizeGroup (cmd pre post : List Char) (cs : List Char) :
    Option (List Char × Nat) := do
  let r0 ← litPfx? [lbrace] cs
  let r1 ← litPfx? cmd r0
  let ws := r1.takeWhile (fun c => isJsWs c)
  if ws.isEmpty then failure
  let r2 := r1.drop ws.length
  let run := r2.takeWhile (fun d => d ≠ rbrace)
  if run.any (fun d => d = '\n' ∨ d = '\r') then failure
  match r2.dropWhile (fun d => d ≠ rbrace) with
  | d :: rest =>
    if d = rbrace then pure (pre ++ run ++ post, cs.length - rest.length) else failure
  | [] => failure

/-- `\\begin\{center\}([\s\S]*?)\\end\{center\}` rewritten to a centered
div. -/
def stepCenter (cs : List Char) : Option (List Char × Nat) := do
  let r ← litPfx? ("\\begin\x7bcenter\x7d".data) cs
  let t ← findMarker [("\\end\x7bcenter\x7d".data)] (r.length + 1) r
  pure (("<div class=\"text-center\">".data) ++ t.1 ++ ("</div>".data),
    cs.length - t.2.2.length)

/-- The inner rewriting of an instruction box: the three `\begin{itemize}`
variants tried inside the `\fbox{\parbox{...}{...}}` replacement callback. -/
def fboxItemizeA (cs : List Char) : Option (List Char × Nat) := do
  let r ← litPfx? ("\\begin\x7bitemize\x7d[leftmargin=*".data) cs
  let r2 := if r.head? = some ',' then r.drop 1 else r
  let r3 := skipWs r2
  let r4 ← litPfx? ("itemsep=".data) r3
  match r4.dropWhile (fun d => d ≠ ']') with
  | ']' :: rest =>
    pure (("<ul class=\"list-disc ml-5 space-y-0.5 my-2\">".data), cs.length - rest.length)
  | _ => failure

def fboxItemizeB (cs : List Char) : Option (List Char × Nat) := do
  let r ← litPfx? ("\\begin\x7bitemize\x7d[itemsep=".data) cs
  match r.dropWhile (fun d => d ≠ ']') with
  | ']' :: rest =>
    pure (("<ul class=\"list-disc ml-5 space-y-0.5 my-2\">".data), cs.length - rest.length)
  | _ => failure

def fboxInnerProcess (content : List Char) : List Char :=
  let c1 := runPass fboxItemizeA content
  let c2 := runPass fboxItemizeB c1
  replaceAllLit ("\\begin\x7bitemize\x7d".data)
    ("<ul class=\"list-disc ml-5 space-y-1 my-2\">".data) c2

/-- `\\fbox\{\\parbox\{[^}]*\}\{([\s\S]*?)\}\}` with the instruction-box
callback (a function replacement, inserted literally). -/
def stepFboxParbox (cs : List Char) : Option (List Char × Nat) := do
  let r ← litPfx? ("\\fbox\x7b\\parbox\x7b".data) cs
  let run := r.takeWhile (fun d => d ≠ rbrace)
  let r2 ← litPfx? [rbrace] (r.drop run.length)
  let r3 ← litPfx? [lbrace] r2
  let t ← findMarker [[rbrace, rbrace]] (r3.length + 1) r3
  pure (("<div class=\"border-2 border-black p-4 my-6 bg-white\">".data) ++
      fboxInnerProcess t.1 ++ ("</div>".data),
    cs.length - t.2.2.length)

/-- `\\fbox\{([\s\S]*?)\}` rewritten to a bordered div. -/
def stepFbox (cs : List Char) : Option (List Char × Nat) := do
  let r ← litPfx? ("\\fbox\x7b".data) cs
  let t ← findMarker [[rbrace]] (r.length + 1) r
  pure (("<div class=\"border-2 border-gray-800 p-4 rounded-md inline-block\">".data) ++
      t.1 ++ ("</div>".data),
    cs.length - t.2.2.length)

/-- Length through the last `\fboxrule` occurrence of the region. -/
def fboxruleLast : Nat → List Char → Option Nat
  | 0, _ => none
  | fuel + 1, l =>
    match l with
    | [] => none
    | _ :: rest =>
      match fboxruleLast fuel rest with
      | some n => some (n + 1)
      | none =>
        if ("\\fboxrule".data).isPrefixOf l then some ("\\fboxrule".data).length
        else none

/-- Greedy core of `\\dimexpr[^}]*\\fboxsep[^}]*\\fboxrule`: the last
`\fboxsep` that is still followed by a `\fboxrule`, then the last
`\fboxrule`, all before the first `}`. -/
def dimexprCore : Nat → List Char → Option Nat
  | 0, _ => none
  | fuel + 1, l =>
    match l with
    | [] => none
    | _ :: rest =>
      match (dimexprCore fuel rest).map (fun n => n + 1) with
      | some n => some n
      | none =>
        if ("\\fboxsep".data).isPrefixOf l then
          (fboxruleLast (l.drop 8).length (l.drop 8)).map (fun m => 8 + m)
        else none

def stepDimexpr (cs : List Char) : Option (List Char × Nat) := do
  let r ← litPfx? ("\\dimexpr".data) cs
  let run := r.takeWhile (fun c => c ≠ rbrace)
  let n ← dimexprCore (run.length + 1) run
  pure (("100%".data), ("\\dimexpr".data).length + n)

/-- `\\\\\[?[^\]]*\]?` rewritten to `<br/>`: two backslashes, an optional
`[`, a greedy `]`-free run, an optional `]` — so a `\\` swallows everything
up to and including the next `]`, or to the end of input. -/
def stepLineBreak (cs : List Char) : Option (List Char × Nat) := do
  let r ← litPfx? [bslash, bslash] cs
  let r2 := if r.head? = some '[' then r.drop 1 else r
  let run := r2.takeWhile (fun d => d ≠ ']')
  let r3 := r2.drop run.length
  let r4 := if r3.head? = some ']' then r3.drop 1 else r3
  pure (("<br/>".data), cs.length - r4.length)

/-- `\\_(?![^$]*\$)` rewritten to `_`: the lookahead succeeds exactly when a
`$` occurs anywhere later, so the escape is removed only when no `$`
follows. -/
def stepUnderscoreUnescape (cs : List Char) : Option (List Char × Nat) := do
  let r ← litPfx? ("\\_".data) cs
  if containsSub ['$'] r then failure
  pure (['_'], 2)

/-- `\\par\s*` rewritten to a paragraph break. -/
def stepPar (cs : List Char) : Option (List Char × Nat) := do
  let r ← litPfx? ("\\par".data) cs
  let ws := r.takeWhile (fun c => isJsWs c)
  pure (("</p><p class=\"my-4\">".data), 4 + ws.length)

/-- JS `String.prototype.split` with a string separator (non-overlapping,
left to right). -/
def splitOnSub (sep : List Char) : Nat → List Char → List (List Char)
  | 0, l => [l]
  | fuel + 1, l =>
    match findMarker [sep] (l.length + 1) l with
    | some t => t.1 :: splitOnSub sep fuel t.2.2
    | none => [l]

/-- `para.match(/^<[^>]+>$/)`: the paragraph is exactly one tag. -/
def isSingleTag (l : List Char) : Bool :=
  match l with
  | '<' :: rest =>
    let run := rest.takeWhile (fun d => d ≠ '>')
    !run.isEmpty && rest.drop run.length = ['>']
  | _ => false

/-- `para.match(/^<(div|h[1-6]|ul|ol|hr)/)`. -/
def isBlockStart (l : List Char) : Bool :=
  [("<div".data), ("<h1".data), ("<h2".data), ("<h3".data), ("<h4".data),
   ("<h5".data), ("<h6".data), ("<ul".data), ("<ol".data), ("<hr".data)].any
    (fun p => p.isPrefixOf l)

/-- The final paragraph wrapping: split on blank lines, trim, drop empties and
bare single tags, wrap non-block-level paragraphs in `<p>`, join with line
feeds. -/
def paragraphWrap (l : List Char) : List Char :=
  let paras := (splitOnSub ("\n\n".data) (l.length + 1) l).map jsTrim
  let kept := paras.filter (fun p => 0 < p.length && !isSingleTag p)
  let wrapped := kept.map (fun p =>
    if isBlockStart p then p
    else ("<p class=\"my-4\">".data) ++ p ++ ("</p>".data))
  List.intercalate ['\n'] wrapped

/-- The full `formatContent`, pass for pass in source order. -/
def formatContent (latex : String) : String :=
  let l := latex.data
  let l := runPass (stepCmdOptBracketBrace ("\\documentclass".data) []) l
  let l := runPass (stepCmdOptBracketBrace ("\\usepackage".data) []) l
  let l := runPass (stepCmdBrace ("\\geometry".data) []) l
  let l := runPass (stepCmdBrace ("\\pagestyle".data) []) l
  let l := runPass (stepCmdBrace2 ("\\setlength".data) []) l
  let l := runPass (stepCmdBrace2 ("\\addtolength".data) []) l
  let l := replaceAllLit ("\\fancyhf\x7b\x7d".data) [] l
  let l := runPass (stepCmdBracketBrace ("\\fancyhead".data) []) l
  let l := runPass (stepCmdBracketBrace ("\\fancyfoot".data) []) l
  let l := replaceAllLit ("\\begin\x7bdocument\x7d".data) [] l
  let l := replaceAllLit ("\\end\x7bdocument\x7d".data) [] l
  let l := replaceAllLit ("\\maketitle".data) [] l
  let l := runPass (stepCmdBrace ("\\title".data) []) l
  let l := runPass (stepCmdBrace ("\\author".data) []) l
  let l := runPass (stepCmdBrace ("\\date".data) []) l
  let l := replaceAllLit ("\\noindent".data) [] l
  let l := replaceAllLit ("\\centering".data) [] l
  let l := runPass (stepCmdBrace ("\\phantom".data) []) l
  let l := runPass stepDimexpr l
  let l := runPass (stepCmdBrace ("\\vspace".data) ("<div class=\"my-4\"></div>".data)) l
  let l := runPass (stepCmdBrace ("\\hspace".data)
    ("<span class=\"inline-block w-4\"></span>".data)) l
  let l := replaceAllLit ("\\newpage".data)
    ("<div class=\"border-t-2 border-gray-300 my-8\"></div>".data) l
  let l := runPass stepCenter l
  let l := runPass stepFboxParbox l
  let l := runPass stepFbox l
  let l := runPass (stepCmdBrace2 ("\\rule".data)
    ("<hr class=\"border-t-2 border-gray-400 my-2\" />".data)) l
  let l := runPass (stepCmdBraceWrap ("\\section*".data)
    ("<h2 class=\"text-2xl font-bold mt-8 mb-4 text-purple-700\">".data) ("</h2>".data)) l
  let l := runPass (stepCmdBraceWrap ("\\subsection*".data)
    ("<h3 class=\"text-xl font-semibold mt-6 mb-3 text-indigo-600\">".data) ("</h3>".data)) l
  let l := runPass (stepCmdBraceWrap ("\\section".data)
    ("<h2 class=\"text-2xl font-bold mt-8 mb-4 text-purple-700\">".data) ("</h2>".data)) l
  let l := runPass (stepCmdBraceWrap ("\\subsection".data)
    ("<h3 class=\"text-xl font-semibold mt-6 mb-3 text-indigo-600\">".data) ("</h3>".data)) l
  let l := runPass (stepSizeGroup ("\\Large".data)
    ("<span class=\"text-2xl\">".data) ("</span>".data)) l
  let l := runPass (stepSizeGroup ("\\large".data)
    ("<span class=\"text-xl\">".data) ("</span>".data)) l
  let l := runPass (stepSizeGroup ("\\small".data)
    ("<span class=\"text-sm\">".data) ("</span>".data)) l
  let l := runPass (stepSizeGroup ("\\tiny".data)
    ("<span class=\"text-xs\">".data) ("</span>".data)) l
  let l := runPass (fun cs => do
    let r ← litPfx? ("\\begin\x7bitemize\x7d".data) cs
    let rest := match bracketGroup? r with | some p => p.2 | none => r
    pure (("<ul class=\"list-disc ml-6 my-3 space-y-1\">".data), cs.length - rest.length)) l
  let l := replaceAllLit ("\\end\x7bitemize\x7d".data) ("</ul>".data) l
  let l := runPass (fun cs => do
    let r ← litPfx? ("\\begin\x7benumerate\x7d".data) cs
    let rest := match bracketGroup? r with | some p => p.2 | none => r
    pure (("<ol class=\"list-decimal ml-6 my-3 space-y-1\">".data), cs.length - rest.length)) l
  let l := replaceAllLit ("\\end\x7benumerate\x7d".data) ("</ol>".data) l
  let l := runPass (fun cs => do
    let r ← litPfx? ("\\item".data) cs
    let rest :=
      match bracketGroup? (skipWs r) with
      | some p => p.2
      | none => r
    pure (("<li class=\"ml-0 pl-1\">".data), cs.length - rest.length)) l
  let l := runPass (stepCmdBraceWrap ("\\textbf".data)
    ("<strong>".data) ("</strong>".data)) l
  let l := runPass (stepCmdBraceWrap ("\\textit".data) ("<em>".data) ("</em>".data)) l
  let l := runPass (stepCmdBraceWrap ("\\emph".data) ("<em>".data) ("</em>".data)) l
  let l := runPass (stepCmdBraceWrap ("\\underline".data) ("<u>".data) ("</u>".data)) l
  let l := runPass stepLineBreak l
  let l := replaceAllLit ("\\newline".data) ("<br/>".data) l
  let l := replaceAllLit ("\\&".data) (['&']) l
  let l := replaceAllLit ("\\%".data) (['%']) l
  let l := replaceAllLit ("\\#".data) (['#']) l
  let l := runPass stepUnderscoreUnescape l
  let l := replaceAllLit ("\\bigskip".data) ("<div class=\"my-6\"></div>".data) l
  let l := replaceAllLit ("\\medskip".data) ("<div class=\"my-4\"></div>".data) l
  let l := replaceAllLit ("\\smallskip".data) ("<div class=\"my-2\"></div>".data) l
  let l := replaceAllLit ("\\quad".data) ("<span class=\"inline-block w-8\"></span>".data) l
  let l := replaceAllLit ("\\qquad".data) ("<span class=\"inline-block w-16\"></span>".data) l
  let l := runPass stepPar l
  String.mk (paragraphWrap l)

/-! ### Shared concrete documents -/

/-- A document whose headers are numbered 3, 1, 2, 1 (pattern 6 of the
cascade). -/
def dupNumberDoc : String :=
  "3. aaaaaaaaaa\n1. bbbbbbbbbb\n2. cccccccccc\n1. dddddddddd"

/-! ### Helper lemmas about dedup and sort -/

theorem find?_map_hit (acc : List Question) (q : Question)
    (h : acc.any (fun p => p.number = q.number)) :
    (acc.map (fun p => if p.number = q.number then q else p)).find?
      (fun p => p.number == q.number) = some q := by
  induction acc with
  | nil => simp at h
  | cons p rest ih =>
    by_cases hp : p.number = q.number
    · simp [hp]
    · have h2 : rest.any (fun p => p.number = q.number) := by
        simpa [hp] using h
      simpa [hp, List.find?_cons] using ih h2

theorem find?_map_miss (acc : List Question) (q : Question) (n : Nat)
    (h : q.number ≠ n) :
    (acc.map (fun p => if p.number = q.number then q else p)).find?
      (fun p => p.number == n) = acc.find? (fun p => p.number == n) := by
  induction acc with
  | nil => rfl
  | cons p rest ih =>
    by_cases hp : p.number = q.number
    · have hqn : (q.number == n) = false := by
        simp only [beq_eq_false_iff_ne, ne_eq]; exact h
      have hpn : (p.number == n) = false := by
        simp only [beq_eq_false_iff_ne, ne_eq]
        exact fun hh => h (hp.symm.trans hh)
      simp only [List.map_cons, if_pos hp, List.find?_cons, hqn, hpn]
      exact ih
    · by_cases hn : ((p.number == n) = true)
      · simp only [List.map_cons, if_neg hp, List.find?_cons, hn]
      · have hn2 : (p.number == n) = false := by
          simpa using hn
        simp only [List.map_cons, if_neg hp, List.find?_cons, hn2]
        exact ih

theorem find?_dedupStep (acc : List Question) (q : Question) (n : Nat) :
    (dedupStep acc q).find? (fun p => p.number == n) =
      if q.number = n then some q else acc.find? (fun p => p.number == n) := by
  unfold dedupStep
  by_cases hany : acc.any (fun p => p.number = q.number)
  · rw [if_pos hany]
    by_cases hn : q.number = n
    · rw [if_pos hn]
      subst hn
      exact find?_map_hit acc q hany
    · rw [if_neg hn]
      exact find?_map_miss acc q n hn
  · rw [if_neg hany]
    rw [List.find?_append]
    by_cases hn : q.number = n
    · have hnone : acc.find? (fun p => p.number == n) = none := by
        rw [List.find?_eq_none]
        intro x hx hxn
        exact hany (List.any_eq_true.mpr ⟨x, hx, by
          simp only [beq_iff_eq] at hxn
          simp [hxn, hn]⟩)
      simp [hnone, hn]
    · simp [hn]

theorem find?_dedupFold (qs : List Question) :
    ∀ (acc : List Question) (n : Nat),
      (qs.foldl dedupStep acc).find? (fun p => p.number == n) =
        (qs.reverse.find? (fun p => p.number == n)).or
          (acc.find? (fun p => p.number == n)) := by
  induction qs with
  | nil => intro acc n; simp
  | cons q rest ih =>
    intro acc n
    have step : ([q].find? (fun p => p.number == n)).or
        (acc.find? (fun p => p.number == n)) =
        (dedupStep acc q).find? (fun p => p.number == n) := by
      rw [find?_dedupStep]
      by_cases hn : q.number = n
      · simp [hn]
      · simp [hn]
    calc ((q :: rest).foldl dedupStep acc).find? (fun p => p.number == n)
        = (rest.foldl dedupStep (dedupStep acc q)).find? (fun p => p.number == n) := rfl
      _ = (rest.reverse.find? (fun p => p.number == n)).or
            ((dedupStep acc q).find? (fun p => p.number == n)) := ih _ n
      _ = (rest.reverse.find? (fun p => p.number == n)).or
            (([q].find? (fun p => p.number == n)).or
              (acc.find? (fun p => p.number == n))) := by rw [step]
      _ = ((q :: rest).reverse.find? (fun p => p.number == n)).or
            (acc.find? (fun p => p.number == n)) := by
            rw [List.reverse_cons, List.find?_append, Option.or_assoc]

/-- The record kept for each number by the Map-based dedup is the last
occurrence of that number in the parsed list. -/
theorem dedupByNumber_last_wins (qs : List Question) (n : Nat) :
    (dedupByNumber qs).find? (fun p => p.number == n) =
      qs.reverse.find? (fun p => p.number == n) := by
  unfold dedupByNumber
  rw [find?_dedupFold]
  simp

theorem map_number_replace (acc : List Question) (q : Question) :
    (acc.map (fun p => if p.number = q.number then q else p)).map Question.number =
      acc.map Question.number := by
  induction acc with
  | nil => rfl
  | cons p rest ih =>
    by_cases hp : p.number = q.number
    · simp only [List.map_cons, if_pos hp, ih]
      rw [hp]
    · simp only [List.map_cons, if_neg hp, ih]

theorem dedupStep_map_number (acc : List Question) (q : Question) :
    (dedupStep acc q).map Question.number =
      if acc.any (fun p => p.number = q.number) then acc.map Question.number
      else acc.map Question.number ++ [q.number] := by
  unfold dedupStep
  by_cases hany : acc.any (fun p => p.number = q.number)
  · rw [if_pos hany, if_pos hany]
    exact map_number_replace acc q
  · rw [if_neg hany, if_neg hany]
    simp

theorem dedupStep_nodup (acc : List Question) (q : Question)
    (h : (acc.map Question.number).Nodup) :
    ((dedupStep acc q).map Question.number).Nodup := by
  rw [dedupStep_map_number]
  by_cases hany : acc.any (fun p => p.number = q.number)
  · rwa [if_pos hany]
  · rw [if_neg hany, List.nodup_append]
    refine ⟨h, List.nodup_singleton _, ?_⟩
    intro a ha hb
    rcases List.mem_map.mp ha with ⟨p, hp, rfl⟩
    have hq : p.number = q.number := by simpa using hb
    exact hany (List.any_eq_true.mpr ⟨p, hp, by simpa using hq⟩)

theorem dedupFold_nodup (qs : List Question) :
    ∀ acc : List Question, (acc.map Question.number).Nodup →
      ((qs.foldl dedupStep acc).map Question.number).Nodup := by
  induction qs with
  | nil => intro acc h; exact h
  | cons q rest ih => intro acc h; exact ih _ (dedupStep_nodup acc q h)

theorem dedupByNumber_nodup (qs : List Question) :
    ((dedupByNumber qs).map Question.number).Nodup :=
  dedupFold_nodup qs [] (by simp)

instance : IsTotal Question (fun a b => a.number ≤ b.number) :=
  ⟨fun a b => Nat.le_total a.number b.number⟩

instance : IsTrans Question (fun a b => a.number ≤ b.number) :=
  ⟨fun _ _ _ h1 h2 => Nat.le_trans h1 h2⟩

theorem sortByNumber_pairwise_le (qs : List Question) :
    (sortByNumber qs).Pairwise (fun a b => a.number ≤ b.number) :=
  List.sorted_insertionSort _ qs

theorem sortByNumber_map_nodup (qs : List Question)
    (h : (qs.map Question.number).Nodup) :
    ((sortByNumber qs).map Question.number).Nodup :=
  (((List.perm_insertionSort _ qs).map Question.number).symm).nodup h

/-- On every input the extractor output is strictly ascending in `number`
(hence also duplicate-free). -/
theorem parseQuestions_pairwise_lt (s : String) :
    ((parseQuestions s).map Question.number).Pairwise (· < ·) := by
  have hle : ((parseQuestions s).map Question.number).Pairwise (· ≤ ·) :=
    List.pairwise_map.mpr (sortByNumber_pairwise_le _)
  have hnd : ((parseQuestions s).map Question.number).Nodup :=
    sortByNumber_map_nodup _ (dedupByNumber_nodup _)
  exact (hle.and hnd).imp (fun hab => lt_of_le_of_ne hab.1 hab.2)

/-! ### Claim theorems -/

set_option maxRecDepth 4000

/-- Claim C1, counterexample: the Sanitizer is not idempotent.  On the input
`__` the first pass escapes only the final underscore of the run (its
escape regex skips an underscore followed by an underscore or whitespace,
and the collapse regexes then match neither `_\_` nor a lone pair), while the
second pass escapes the now-exposed first underscore and collapses the
resulting `\_\_` into a blank construct. -/
theorem sanitizeLatex_not_idempotent :
    sanitizeLatex (sanitizeLatex "__") ≠ sanitizeLatex "__" := by decide

/-- Claim C1, amended: `sanitizeLatex` is idempotent on text without raw
underscore runs adjacent to a non-space boundary (e.g. on the spec's escaping
example), but not in general: `sanitizeLatex "__" = "_\_"`, a second
application yields `\underline{\hspace{0.6cm}}`, and only from there on is the
result a fixed point. -/
theorem sanitizeLatex_idempotence_amended :
    sanitizeLatex (sanitizeLatex "Revenue rose 5% in Q1_2024 & grew") =
      sanitizeLatex "Revenue rose 5% in Q1_2024 & grew" ∧
    sanitizeLatex "__" = "_\\_" ∧
    sanitizeLatex (sanitizeLatex "__") = "\\underline\x7b\\hspace\x7b0.6cm\x7d\x7d" ∧
    sanitizeLatex (sanitizeLatex (sanitizeLatex "__")) =
      sanitizeLatex (sanitizeLatex "__") :=
  ⟨by decide, by decide, by decide, by decide⟩

/-- Claim C2, counterexample: protected spans do not always survive.  In
`%$a$` the inline-math span `$a$` is recognized and replaced by `MATHBLOCK0`
before comment lines are protected, so the placeholder ends up inside the
protected comment text; math blocks are restored *before* comment lines, so
the placeholder inside the comment is never restored.  Neither the math span
`$a$` nor the comment line `%$a$` appears in the output `%MATHBLOCK0`. -/
theorem sanitizeLatex_comment_span_lost :
    sanitizeLatex "%$a$" = "%MATHBLOCK0" ∧
    containsSub ("$a$".data) ((sanitizeLatex "%$a$").data) = false ∧
    containsSub ("%$a$".data) ((sanitizeLatex "%$a$").data) = false :=
  ⟨by decide, by decide, by decide⟩

/-- Claim C2, amended: span integrity is not universal.  In the
representative documents `$a_b$ w\n%c d\n\verb|e_f| g` and
`p \[x_2\] q $$x_y$$`, every protected span the scanner recognizes (inline
math, comment line, verbatim, display math in both forms) appears
byte-identical in place — both documents are returned unchanged.  Integrity
fails in two ways: a math or verbatim span inside a comment line is replaced
by its unrestored placeholder (`%$a$` becomes `%MATHBLOCK0`), and input text
shaped like an internal placeholder hijacks the first-occurrence restoration
and relocates a span (`MATHBLOCK0 $x$` becomes `$x$ MATHBLOCK0`). -/
theorem sanitizeLatex_span_integrity_amended :
    sanitizeLatex "$a_b$ w\n%c d\n\\verb|e_f| g" = "$a_b$ w\n%c d\n\\verb|e_f| g" ∧
    sanitizeLatex "p \\[x_2\\] q $$x_y$$" = "p \\[x_2\\] q $$x_y$$" ∧
    sanitizeLatex "%$a$" = "%MATHBLOCK0" ∧
    sanitizeLatex "MATHBLOCK0 $x$" = "$x$ MATHBLOCK0" :=
  ⟨by decide, by decide, by decide, by decide⟩

/-- Claim C3: the Sanitizer is total — it is defined by terminating
recursion (no partiality) on every input string, so a result exists for every
input; in the source no fallible operation occurs (all regexes are fixed and
the sparse-array reads are guarded), matching the never-throws contract.  The
second conjunct evaluates it on a malformed input with an unclosed math span
and an unclosed display-math opener. -/
theorem sanitizeLatex_total :
    (∀ x : String, ∃ y : String, sanitizeLatex x = y) ∧
    sanitizeLatex "_$ \\[" = "\\_$ \\[" :=
  ⟨fun x => ⟨sanitizeLatex x, rfl⟩, by decide⟩

/-- Claim C4, counterexample: the blank-run `Name: ______` is *not* collapsed
into exactly one visual-blank construct: the escape pass first rewrites the
run's final underscore (which is not followed by an underscore or whitespace)
to `\_`, the raw collapse then only matches the remaining five underscores,
and the output carries a stray escaped underscore after the construct — in
particular its last character is not the construct's closing brace. -/
theorem sanitizeLatex_blank_run_residue :
    sanitizeLatex "Name: ______" =
      "Name: \\underline\x7b\\hspace\x7b1.5cm\x7d\x7d\\_" ∧
    (sanitizeLatex "Name: ______").data.getLast? ≠ some rbrace ∧
    containsSub ("\\_".data) ((sanitizeLatex "Name: ______").data) = true :=
  ⟨by decide, by decide, by decide⟩

/-- Claim C4, amended: a run of two or more already-escaped underscores, or of
raw underscores followed by whitespace, collapses into exactly one
`\underline{\hspace{...cm}}` construct whose size grows with the run and is
capped at 4cm; a raw run at end of text (or before a non-space character)
leaves one construct sized from all but the last underscore, followed by a
single escaped underscore — `Name: ______` yields
`Name: \underline{\hspace{1.5cm}}\_`, not a lone construct and not six
escaped underscores. -/
theorem sanitizeLatex_blank_collapse_amended :
    sanitizeLatex "Name: ______" =
      "Name: \\underline\x7b\\hspace\x7b1.5cm\x7d\x7d\\_" ∧
    sanitizeLatex "Name: _____ ok" =
      "Name: \\underline\x7b\\hspace\x7b1.5cm\x7d\x7d ok" ∧
    sanitizeLatex "a\\_\\_b" = "a\\underline\x7b\\hspace\x7b0.6cm\x7d\x7db" ∧
    sanitizeLatex "x _______________ y" =
      "x \\underline\x7b\\hspace\x7b4cm\x7d\x7d y" :=
  ⟨by decide, by decide, by decide, by decide⟩

/-- Claim C5, counterexample: the spec's expected rewriting of the escaping
example carries a spurious backslash after `\%` (`5\%\ in`); the code emits
`5\% in` with no backslash before the space. -/
theorem sanitizeLatex_escape_example_mismatch :
    sanitizeLatex "Revenue rose 5% in Q1_2024 & grew" ≠
      "Revenue rose 5\\%\\ in Q1\\_2024 \\& grew" := by decide

/-- Claim C5, amended: outside protected spans every not-already-escaped
`&`, `%`, `#` and `^` is escaped, and an underscore is escaped only when not
followed by an underscore or whitespace (one before a space stays raw); the
example becomes `Revenue rose 5\% in Q1\_2024 \& grew`. -/
theorem sanitizeLatex_escaping_amended :
    sanitizeLatex "Revenue rose 5% in Q1_2024 & grew" =
      "Revenue rose 5\\% in Q1\\_2024 \\& grew" ∧
    sanitizeLatex "a_ b" = "a_ b" :=
  ⟨by decide, by decide⟩

/-- Claim C6, counterexample: the acceptance filter does not reject a
candidate numbered 0.  The code only tests `isNaN(parseInt(match[1]))`, which
never holds for an all-digit capture, so the header `0.` yields a question
with number 0 in the final list. -/
theorem parseQuestions_accepts_zero :
    ¬ (∀ q ∈ parseQuestions "0. abcdefghij", 0 < q.number) := by decide

/-- Claim C6, amended: the filter rejects a candidate whose number capture is
not numeric (vacuous for these patterns — 0 is accepted), whose trimmed
content is shorter than 5 characters, or whose lower-cased content contains a
boilerplate phrase; in particular a `general instructions` body is excluded
and a too-short body is excluded. -/
theorem parseQuestions_filter_amended :
    parseQuestions "0. abcdefghij" = [⟨0, "abcdefghij", ""⟩] ∧
    parseQuestions "1. general instructions apply here always" = [] ∧
    parseQuestions "1. ab" = [] :=
  ⟨by decide, by decide, by decide⟩

/-- Claim C7: for every input document the extractor's question numbers are
strictly ascending (so no two entries share a number), and the document with
headers numbered 3, 1, 2, 1 yields exactly the numbers 1, 2, 3. -/
theorem parseQuestions_dedup_sort :
    (∀ s : String, ((parseQuestions s).map Question.number).Pairwise (· < ·)) ∧
    (parseQuestions dupNumberDoc).map Question.number = [1, 2, 3] :=
  ⟨parseQuestions_pairwise_lt, by decide⟩

/-- Claim C8, counterexample: math-mode content is *not* passed through
unchanged by the Renderer — it performs no math protection, so its rewrites
apply inside math: in `$a \& b$` the `\&` becomes `&`, and the original math
span no longer occurs in the output. -/
theorem formatContent_math_content_rewritten :
    formatContent "$a \\& b$" = "<p class=\"my-4\">$a & b$</p>" ∧
    containsSub ("$a \\& b$".data) ((formatContent "$a \\& b$").data) = false :=
  ⟨by decide, by decide⟩

/-- Claim C8, amended: the Renderer performs no math-span protection; the
math delimiters themselves are never rewritten and a math span containing no
recognized command or escape survives verbatim (`$x+y$`), but content inside
math is rewritten like ordinary text (`$a \& b$` becomes `$a & b$`). -/
theorem formatContent_math_passthrough_amended :
    formatContent "$x+y$" = "<p class=\"my-4\">$x+y$</p>" ∧
    containsSub ("$x+y$".data) ((formatContent "$x+y$").data) = true ∧
    formatContent "$a \\& b$" = "<p class=\"my-4\">$a & b$</p>" :=
  ⟨by decide, by decide, by decide⟩

/-- Claim C9, counterexample: the Renderer example does not produce the bare
string `<strong>Hello</strong> & <em>World</em>`: the final blank-line pass
wraps every non-block-level fragment in a paragraph element. -/
theorem formatContent_renderer_example_mismatch :
    formatContent "\\textbf\x7bHello\x7d \\& \\textit\x7bWorld\x7d" ≠
      "<strong>Hello</strong> & <em>World</em>" := by decide

/-- Claim C9, amended: the example maps bold to `<strong>`, italic to `<em>`
and `\&` to `&` exactly as stated, wrapped in the Renderer's paragraph
container `<p class="my-4">...</p>`. -/
theorem formatContent_renderer_example_amended :
    formatContent "\\textbf\x7bHello\x7d \\& \\textit\x7bWorld\x7d" =
      "<p class=\"my-4\"><strong>Hello</strong> & <em>World</em></p>" := by decide

/-- Claim C10: on repeated question numbers the record kept is the
last-parsed occurrence — the Map-based dedup keeps, for every number, the
last element of the parsed list with that number; in the 3, 1, 2, 1 document
the record for number 1 is the fourth header's (`dddddddddd`), not the
second's. -/
theorem parseQuestions_last_wins :
    (∀ (qs : List Question) (n : Nat),
      (dedupByNumber qs).find? (fun p => p.number == n) =
        qs.reverse.find? (fun p => p.number == n)) ∧
    parseQuestions dupNumberDoc =
      [⟨1, "dddddddddd", ""⟩, ⟨2, "cccccccccc", ""⟩, ⟨3, "aaaaaaaaaa", ""⟩] :=
  ⟨dedupByNumber_last_wins, by decide⟩
